import Mathlib

/-!
Verification of the lifecycle orchestrator in `src/manage.py` of the
Minecraft-Installer repository.

The Python source is shallowly embedded: strings become `List Char`
wrapped in `String`, Python builtins (`int`, `str.strip`, `str.replace`,
`in`, `str.index`, slicing) are modelled by executable Lean functions, and
exceptions are modelled with `Except`.  The remote-console layer
(`RCONService._api_cmd`) is not part of the repository source; calls to it
are modelled as call-indexed oracles supplied to each operation.
-/

/-- Python exceptions that can escape the modelled code paths.
`valueError` models `ValueError` (raised by `str.index` on a missing
substring and by `int()` on an unparsable string); `gameAPI` models
`GameAPIException`, the failure raised by the remote-console layer. -/
inductive PyExc where
  | valueError
  | gameAPI
  deriving DecidableEq, Repr

/-- Model of Python `str.strip()`: remove leading and trailing whitespace. -/
def pyStrip (cs : List Char) : List Char :=
  ((cs.dropWhile Char.isWhitespace).reverse.dropWhile Char.isWhitespace).reverse

/-- Model of Python substring containment `pat in s`. -/
def containsSub (pat : List Char) : List Char → Bool
  | [] => pat.isEmpty
  | c :: t => pat.isPrefixOf (c :: t) || containsSub pat t

/-- Model of Python `s.index(pat)` (as an `Option`: `none` models the
`ValueError` raised when the substring is absent). -/
def firstIdx (pat : List Char) : List Char → Option Nat
  | [] => if pat.isEmpty then some 0 else none
  | c :: t =>
    if pat.isPrefixOf (c :: t) then some 0
    else (firstIdx pat t).map (fun n => n + 1)

/-- Digit-sequence parser used by the model of Python `int()`: consumes the
remaining characters after the first digit, allowing single underscores
between digits (CPython's integer-literal grammar for `int(str)`).  The
Bool flag records whether the previous character was an underscore, which
must be followed by a digit. -/
def pyIntGo : List Char → Nat → Bool → Option Nat
  | [], acc, underscore => if underscore then none else some acc
  | c :: rest, acc, underscore =>
    if c.isDigit then pyIntGo rest (acc * 10 + (c.toNat - 48)) false
    else if c = '_' then
      (if underscore then none else pyIntGo rest acc true)
    else none

/-- Unsigned decimal parser: nonempty digit string (underscore-separated
groups allowed), as accepted by Python `int()` after sign removal. -/
def pyIntDigits : List Char → Option Nat
  | [] => none
  | c :: rest => if c.isDigit then pyIntGo rest (c.toNat - 48) false else none

/-- Model of Python `int(s)` on a string: strip whitespace, optional sign,
then a nonempty digit sequence.  `none` models the raised `ValueError`. -/
def pyInt (cs : List Char) : Option Int :=
  match pyStrip cs with
  | [] => none
  | c :: rest =>
    if c = '-' then (pyIntDigits rest).map (fun n => -(n : Int))
    else if c = '+' then (pyIntDigits rest).map (fun n => (n : Int))
    else (pyIntDigits (c :: rest)).map (fun n => (n : Int))

/-- Numeric value denoted by a decimal digit string. -/
def digitsToNat (ds : List Char) : Nat :=
  ds.foldl (fun acc c => acc * 10 + (c.toNat - 48)) 0

/-- The fixed marker `'There are '` searched for in the `/list` response
(`manage.py` line 173). -/
def markerList : List Char := "There are ".toList

/-- The fixed delimiter `' of a max'` looked up with `str.index`
(`manage.py` line 174). -/
def delimList : List Char := " of a max".toList

/-- Embedding of `GameService.get_player_count` (`manage.py` 163-178).
The argument is the outcome of the single `self._api_cmd('/list')` call:
`.error ()` models a raised `GameAPIException`, `.ok none` a `None`
return, `.ok (some ret)` a text response.  The body mirrors the source:
`try: ret = ...; if ret is None: return None; elif 'There are ' in ret:
return int(ret[10:ret.index(' of a max')].strip()); else: return None;
except GameAPIException: return None`.  Only `GameAPIException` is caught,
so a `ValueError` from `str.index` or `int` escapes as `.error`. -/
def get_player_count (api : Except Unit (Option String)) :
    Except PyExc (Option Int) :=
  match api with
  | .error _ => .ok none
  | .ok none => .ok none
  | .ok (some ret) =>
    let cs := ret.toList
    if containsSub markerList cs then
      match firstIdx delimList cs with
      | none => .error .valueError
      | some j =>
        match pyInt (pyStrip ((cs.take j).drop 10)) with
        | none => .error .valueError
        | some n => .ok (some n)
    else .ok none

instance {ε α : Type} [DecidableEq ε] [DecidableEq α] : DecidableEq (Except ε α) :=
  fun a b =>
    match a, b with
    | .ok x, .ok y =>
      if h : x = y then isTrue (by rw [h])
      else isFalse (by intro hh; injection hh; contradiction)
    | .error x, .error y =>
      if h : x = y then isTrue (by rw [h])
      else isFalse (by intro hh; injection hh; contradiction)
    | .ok _, .error _ => isFalse (by intro h; cases h)
    | .error _, .ok _ => isFalse (by intro h; cases h)

/-- Model of Python `s.replace(pat, rep)` (replaces every non-overlapping
occurrence, left to right).  Structured with a fuel argument so that it is
structurally recursive and evaluates in the kernel; `fuel = l.length`
suffices for a nonempty pattern. -/
def pyReplaceFuel (pat rep : List Char) : Nat → List Char → List Char
  | 0, l => l
  | _ + 1, [] => []
  | fuel + 1, c :: t =>
    if pat.isPrefixOf (c :: t) then
      rep ++ pyReplaceFuel pat rep fuel ((c :: t).drop pat.length)
    else c :: pyReplaceFuel pat rep fuel t

/-- `s.replace(pat, rep)` for a nonempty pattern. -/
def pyReplaceAll (pat rep l : List Char) : List Char :=
  pyReplaceFuel pat rep l.length l

/-- Number of non-overlapping occurrences of `pat`, counted the way
`str.replace` scans (left to right, skipping the matched block). -/
def countOccFuel (pat : List Char) : Nat → List Char → Nat
  | 0, _ => 0
  | _ + 1, [] => 0
  | fuel + 1, c :: t =>
    if pat.isPrefixOf (c :: t) then 1 + countOccFuel pat fuel ((c :: t).drop pat.length)
    else countOccFuel pat fuel t

/-- Occurrence count of a nonempty pattern in a string. -/
def countOcc (pat l : List Char) : Nat := countOccFuel pat l.length l

/-- The literal placeholder token (an opening brace, `instance`, a closing
brace) substituted in notification templates (`manage.py` 230-231, 254-255). -/
def placeholderTok : List Char := "\x7binstance\x7d".toList

/-- Embedding of the notification-template rendering in `post_start` /
`pre_stop`: `if '{instance}' in msg: msg = msg.replace('{instance}',
self.get_name())`. -/
def render (template instName : String) : String :=
  if containsSub placeholderTok template.toList then
    String.mk (pyReplaceAll placeholderTok instName.toList template.toList)
  else template

/-- Replace only the first occurrence of `pat`. -/
def replaceFirstGo (pat rep : List Char) : List Char → List Char
  | [] => []
  | c :: t =>
    if pat.isPrefixOf (c :: t) then rep ++ (c :: t).drop pat.length
    else c :: replaceFirstGo pat rep t

/-- Rendering as the spec's words describe it ("rendered with it replaced
by the instance display name exactly once"): the placeholder token is
replaced at its first occurrence only.  Stated for comparison with
`render`, which embeds the source. -/
def renderOnceSpec (template instName : String) : String :=
  if containsSub placeholderTok template.toList then
    String.mk (replaceFirstGo placeholderTok instName.toList template.toList)
  else template

/-- Observable actions of the orchestrator.  `poll` is a
`self.get_player_count()` call (one `_api_cmd('/list')`), `say msg` is
`send_message(msg)` (one `_api_cmd('/say ' + msg)`), `save` is
`_api_cmd('save-all flush')`, `discord msg` is
`game.send_discord_message(msg)`, and `sleep s` is `time.sleep(s)`. -/
inductive Event where
  | poll
  | say (msg : String)
  | save
  | discord (msg : String)
  | sleep (secs : Nat)
  deriving DecidableEq, Repr

/-- Whether an event is a Discord notification. -/
def isDiscordEv : Event → Bool
  | Event.discord _ => true
  | _ => false

/-- Configuration values read by `post_start`: the
`'Instance Started (Discord)'` template and `get_name()` (the
`'Level Name'` option). -/
structure StartOpts where
  startedTemplate : String
  instanceName : String
  deriving DecidableEq, Repr

/-- Configuration values read by `pre_stop`: the
`'Instance Stopping (Discord)'` template, `get_name()`, and the seven
shutdown-warning message options in schedule order. -/
structure StopOpts where
  stoppingTemplate : String
  instanceName : String
  w5 : String
  w4 : String
  w3 : String
  w2 : String
  w1 : String
  w30 : String
  wNow : String
  deriving DecidableEq, Repr

/-- The `while counter < 24` loop of `post_start` (`manage.py` 224-241).
`polls k` is the value returned (or exception raised) by the `k`-th
`self.get_player_count()` call; `fuel` is the number of remaining
iterations (`24 - counter`).  On a defined count the rendered started
notification is sent and the loop returns `True`; on `None` the loop
sleeps 10 s and retries; exhaustion returns `False`. -/
def postStartLoop (polls : Nat → Except PyExc (Option Int)) (g : StartOpts) :
    Nat → Nat → List Event × Except PyExc Bool
  | _, 0 => ([], .ok false)
  | idx, fuel + 1 =>
    match polls idx with
    | .error e => ([Event.poll], .error e)
    | .ok (some _) =>
      ([Event.poll, Event.discord (render g.startedTemplate g.instanceName)], .ok true)
    | .ok none =>
      let r := postStartLoop polls g (idx + 1) fuel
      (Event.poll :: Event.sleep 10 :: r.1, r.2)

/-- Embedding of `GameService.post_start` (`manage.py` 218-244): if the
API is enabled, run the 24-attempt poll loop; otherwise succeed
immediately with no calls. -/
def post_start (apiEnabled : Bool) (polls : Nat → Except PyExc (Option Int))
    (g : StartOpts) : List Event × Except PyExc Bool :=
  if apiEnabled then postStartLoop polls g 0 24 else ([], .ok true)

/-- The fixed warning schedule built in `pre_stop` (`manage.py` 259-267):
seven `(message option, seconds to wait)` pairs. -/
def stopTimers (g : StopOpts) : List (String × Nat) :=
  [(g.w5, 60), (g.w4, 60), (g.w3, 60), (g.w2, 60), (g.w1, 30), (g.w30, 30), (g.wNow, 0)]

/-- The `for timer in timers` loop of `pre_stop` (`manage.py` 268-276).
`polls k` is the result of the `k`-th `self.get_player_count()` call;
`cmds k` the outcome of the `k`-th `_api_cmd` that `pre_stop` issues
directly (`/say` warnings, then `save-all flush`), where `.error ()`
models a raised `GameAPIException`.  On a defined positive count the
warning is sent and, when the step's wait is nonzero (`if timer[1]:`),
the loop sleeps; otherwise (`None` or nonpositive) it breaks.  On success
the result carries the next free `cmds` index. -/
def preStopLoop (polls : Nat → Except PyExc (Option Int))
    (cmds : Nat → Except Unit (Option String)) :
    List (String × Nat) → Nat → Nat → List Event × Except PyExc Nat
  | [], _, cmdIdx => ([], .ok cmdIdx)
  | (msg, wait) :: rest, pollIdx, cmdIdx =>
    match polls pollIdx with
    | .error e => ([Event.poll], .error e)
    | .ok (some n) =>
      if n > 0 then
        match cmds cmdIdx with
        | .error _ => ([Event.poll, Event.say msg], .error .gameAPI)
        | .ok _ =>
          let r := preStopLoop polls cmds rest (pollIdx + 1) (cmdIdx + 1)
          (Event.poll :: Event.say msg ::
            (if wait ≠ 0 then Event.sleep wait :: r.1 else r.1), r.2)
      else ([Event.poll], .ok cmdIdx)
    | .ok none => ([Event.poll], .ok cmdIdx)

/-- Embedding of `GameService.pre_stop` (`manage.py` 246-281): render and
send the stopping notification unconditionally; if the API is enabled run
the warning loop, then issue `save-all flush` and sleep 5 s; return
`True`.  `pre_stop` has no `try`/`except`, so an exception from
`get_player_count`, a `/say`, or the save propagates. -/
def pre_stop (apiEnabled : Bool) (polls : Nat → Except PyExc (Option Int))
    (cmds : Nat → Except Unit (Option String)) (g : StopOpts) :
    List Event × Except PyExc Bool :=
  let d := Event.discord (render g.stoppingTemplate g.instanceName)
  if apiEnabled then
    let r := preStopLoop polls cmds (stopTimers g) 0 0
    match r.2 with
    | .error e => (d :: r.1, .error e)
    | .ok cmdIdx =>
      match cmds cmdIdx with
      | .error _ => (d :: r.1 ++ [Event.save], .error .gameAPI)
      | .ok _ => (d :: r.1 ++ [Event.save, Event.sleep 5], .ok true)
  else ([d], .ok true)

/-- A firewall action, as invoked by `option_value_updated`:
`firewall_remove(port, proto)` or `firewall_allow(port, proto, label)`. -/
inductive FwCall where
  | remove (port : Int) (proto : String)
  | allow (port : Int) (proto : String) (label : String)
  deriving DecidableEq, Repr

/-- `self.game.desc`, set in `GameApp.__init__` (`manage.py` 62). -/
def gameDesc : String := "Minecraft Java Edition"

/-- The firewall resync performed for one option: `if previous_value:
firewall_remove(int(previous_value), proto)` then
`firewall_allow(int(new_value), proto, label)`.  A `None` or empty
previous value is falsy, so no remove is attempted; `int()` on a
non-numeric string raises `ValueError`. -/
def firewallCalls (previous_value : Option String) (new_value : String)
    (proto label : String) : Except PyExc (List FwCall) :=
  let removes : Except PyExc (List FwCall) :=
    match previous_value with
    | none => .ok []
    | some s =>
      if s = "" then .ok []
      else
        match pyInt s.toList with
        | none => .error .valueError
        | some p => .ok [FwCall.remove p proto]
  match removes with
  | .error e => .error e
  | .ok rs =>
    match pyInt new_value.toList with
    | none => .error .valueError
    | some q => .ok (rs ++ [FwCall.allow q proto label])

/-- Embedding of `GameService.option_value_updated` (`manage.py` 117-136):
the `'Server Port'` option drives tcp rules labelled as the game port,
`'Query Port'` drives udp rules labelled as the query port, and every
other option performs no firewall call. -/
def option_value_updated (option : String) (previous_value : Option String)
    (new_value : String) : Except PyExc (List FwCall) :=
  if option = "Server Port" then
    firewallCalls previous_value new_value "tcp" ("Allow " ++ gameDesc ++ " game port")
  else if option = "Query Port" then
    firewallCalls previous_value new_value "udp" ("Allow " ++ gameDesc ++ " query port")
  else .ok []

/-- Embedding of `GameApp.check_update_available` (`manage.py` 71-78).
The source body is `# @todo Implement update check for Minecraft` /
`return False`: it returns `False` unconditionally, for every state of
the local installation and of the remote feed. -/
def check_update_available (_u : Unit) : Bool := false

example : get_player_count (.ok (some "There are 5 of a max of 20 players online")) = .ok (some 5) := by decide
example : get_player_count (.ok (some "There are lots")) = .error .valueError := by decide
example : get_player_count (.ok (some "There are -5 of a max of 20")) = .ok (some (-5)) := by decide
example : get_player_count (.ok (some "no players")) = .ok none := by decide
example : get_player_count (.error ()) = .ok none := by decide

example : post_start false (fun _ => .ok none) ⟨"s", "n"⟩ = ([], .ok true) := by decide

example :
    post_start true (fun i => if i = 2 then .ok (some 3) else .ok none) ⟨"go", "World"⟩ =
      ([Event.poll, Event.sleep 10, Event.poll, Event.sleep 10, Event.poll,
        Event.discord "go"], .ok true) := by decide

example :
    pre_stop true
      (fun i => .ok (some (if i = 0 then 5 else if i = 1 then 3 else 0)))
      (fun _ => .ok none) ⟨"stop", "n", "m5", "m4", "m3", "m2", "m1", "m30", "mN"⟩ =
      ([Event.discord "stop", Event.poll, Event.say "m5", Event.sleep 60,
        Event.poll, Event.say "m4", Event.sleep 60, Event.poll,
        Event.save, Event.sleep 5], .ok true) := by decide

example :
    render "hello \x7binstance\x7d!" "World" = "hello World!" := by decide

/-! ### Helper lemmas about the string primitives -/

lemma isPrefixOf_self_append (l t : List Char) : l.isPrefixOf (l ++ t) = true := by
  induction l with
  | nil => simp [List.isPrefixOf]
  | cons c l ih => simp [List.isPrefixOf, ih]

lemma containsSub_of_pref (pat l : List Char) (h : pat.isPrefixOf l = true) :
    containsSub pat l = true := by
  cases l with
  | nil =>
    cases pat with
    | nil => rfl
    | cons p pp => simp [List.isPrefixOf] at h
  | cons c t => simp [containsSub, h]

lemma isPrefixOf_cons_ne (a c : Char) (pp l : List Char) (h : (a == c) = false) :
    List.isPrefixOf (a :: pp) (c :: l) = false := by
  simp [List.isPrefixOf, h]

lemma isPrefixOf_cons2_ne (a b c d : Char) (pp l : List Char) (h : (b == d) = false) :
    List.isPrefixOf (a :: b :: pp) (c :: d :: l) = false := by
  simp [List.isPrefixOf, h]

lemma firstIdx_cons_of_not_pref (pat : List Char) (c : Char) (l : List Char)
    (h : pat.isPrefixOf (c :: l) = false) :
    firstIdx pat (c :: l) = (firstIdx pat l).map (fun n => n + 1) := by
  simp [firstIdx, h]

lemma firstIdx_of_pref (pat l : List Char) (h : pat.isPrefixOf l = true)
    (hpat : pat ≠ []) : firstIdx pat l = some 0 := by
  cases l with
  | nil =>
    cases pat with
    | nil => exact absurd rfl hpat
    | cons p pp => simp [List.isPrefixOf] at h
  | cons c t => simp [firstIdx, h]

lemma digit_ne (c x : Char) (hc : c.isDigit = true) (hx : x.isDigit = false) :
    ¬ c = x := by
  intro h
  rw [h, hx] at hc
  exact Bool.noConfusion hc

lemma beq_eq_false_of_digit (x c : Char) (hx : x.isDigit = false)
    (hc : c.isDigit = true) : (x == c) = false := by
  rcases Bool.eq_false_or_eq_true (x == c) with h | h
  · exact absurd (eq_of_beq h) (fun hh => digit_ne c x hc hx hh.symm)
  · exact h

lemma firstIdx_digits (ds rest : List Char) (hds : ∀ c ∈ ds, c.isDigit = true) :
    firstIdx delimList (ds ++ delimList ++ rest) = some ds.length := by
  induction ds with
  | nil =>
    have hp : delimList.isPrefixOf (delimList ++ rest) = true :=
      isPrefixOf_self_append _ _
    simpa using firstIdx_of_pref delimList (delimList ++ rest) hp (by decide)
  | cons d ds ih =>
    have hd : d.isDigit = true := hds d (List.mem_cons_self d ds)
    have h1 : delimList.isPrefixOf (d :: (ds ++ delimList ++ rest)) = false := by
      rw [show delimList = ' ' :: "of a max".toList from rfl]
      exact isPrefixOf_cons_ne _ _ _ _ (beq_eq_false_of_digit ' ' d (by decide) hd)
    rw [show (d :: ds) ++ delimList ++ rest = d :: (ds ++ delimList ++ rest) from by simp]
    rw [firstIdx_cons_of_not_pref _ _ _ h1,
      ih (fun c hc => hds c (List.mem_cons_of_mem _ hc))]
    simp

lemma firstIdx_full (d : Char) (ds rest : List Char) (hd : d.isDigit = true)
    (hds : ∀ c ∈ ds, c.isDigit = true) :
    firstIdx delimList (markerList ++ (d :: ds) ++ delimList ++ rest) =
      some (10 + (d :: ds).length) := by
  have hTail := firstIdx_digits (d :: ds) rest (by
    intro c hc
    rcases List.mem_cons.mp hc with h | h
    · rw [h]; exact hd
    · exact hds c h)
  have hdelim : delimList = ' ' :: "of a max".toList := rfl
  have hne : ∀ (x : Char) (l : List Char), (' ' == x) = false →
      delimList.isPrefixOf (x :: l) = false := by
    intro x l hx; rw [hdelim]; exact isPrefixOf_cons_ne _ _ _ _ hx
  have h5 : ∀ l : List Char, delimList.isPrefixOf (' ' :: 'a' :: l) = false := by
    intro l; rw [hdelim]; exact isPrefixOf_cons2_ne _ _ _ _ _ _ (by decide)
  have h9 : ∀ l : List Char, delimList.isPrefixOf (' ' :: d :: l) = false := by
    intro l; rw [hdelim]
    exact isPrefixOf_cons2_ne _ _ _ _ _ _ (beq_eq_false_of_digit 'o' d (by decide) hd)
  rw [show markerList ++ (d :: ds) ++ delimList ++ rest =
      'T' :: 'h' :: 'e' :: 'r' :: 'e' :: ' ' :: 'a' :: 'r' :: 'e' :: ' ' ::
        ((d :: ds) ++ delimList ++ rest) from rfl]
  rw [firstIdx_cons_of_not_pref _ _ _ (hne 'T' _ (by decide))]
  rw [firstIdx_cons_of_not_pref _ _ _ (hne 'h' _ (by decide))]
  rw [firstIdx_cons_of_not_pref _ _ _ (hne 'e' _ (by decide))]
  rw [firstIdx_cons_of_not_pref _ _ _ (hne 'r' _ (by decide))]
  rw [firstIdx_cons_of_not_pref _ _ _ (hne 'e' _ (by decide))]
  rw [firstIdx_cons_of_not_pref _ _ _ (h5 _)]
  rw [firstIdx_cons_of_not_pref _ _ _ (hne 'a' _ (by decide))]
  rw [firstIdx_cons_of_not_pref _ _ _ (hne 'r' _ (by decide))]
  rw [firstIdx_cons_of_not_pref _ _ _ (hne 'e' _ (by decide))]
  rw [show (d :: ds) ++ delimList ++ rest = d :: (ds ++ delimList ++ rest) from by simp] at hTail ⊢
  rw [firstIdx_cons_of_not_pref _ _ _ (h9 _)]
  rw [hTail]
  simp
  omega

lemma slice_extract (ds rest : List Char) :
    ((markerList ++ ds ++ delimList ++ rest).take (10 + ds.length)).drop 10 = ds := by
  have hm : markerList.length = 10 := by decide
  rw [show markerList ++ ds ++ delimList ++ rest =
      (markerList ++ ds) ++ (delimList ++ rest) from by simp]
  rw [show 10 + ds.length = (markerList ++ ds).length from by simp [hm]]
  rw [List.take_left]
  rw [show (10 : Nat) = markerList.length from hm.symm]
  rw [List.drop_left]

lemma dropWhile_eq_self_of_not (p : Char → Bool) (l : List Char)
    (h : ∀ c ∈ l, p c = false) : l.dropWhile p = l := by
  cases l with
  | nil => rfl
  | cons c t => simp [List.dropWhile, h c (List.mem_cons_self c t)]

lemma digit_not_whitespace (c : Char) (hc : c.isDigit = true) :
    c.isWhitespace = false := by
  rcases Bool.eq_false_or_eq_true c.isWhitespace with h | h
  · exfalso
    simp [Char.isWhitespace] at h
    rcases h with ((h | h) | h) | h <;> (rw [h] at hc; exact absurd hc (by decide))
  · exact h

lemma pyStrip_digits (ds : List Char) (hds : ∀ c ∈ ds, c.isDigit = true) :
    pyStrip ds = ds := by
  have hw : ∀ c ∈ ds, c.isWhitespace = false := fun c hc =>
    digit_not_whitespace c (hds c hc)
  unfold pyStrip
  rw [dropWhile_eq_self_of_not _ _ hw]
  rw [dropWhile_eq_self_of_not _ _ (fun c hc => hw c (List.mem_reverse.mp hc))]
  exact List.reverse_reverse ds

lemma pyIntGo_digits (l : List Char) :
    ∀ acc : Nat, (∀ c ∈ l, c.isDigit = true) →
    pyIntGo l acc false = some (l.foldl (fun a c => a * 10 + (c.toNat - 48)) acc) := by
  induction l with
  | nil => intro acc _; rfl
  | cons c t ih =>
    intro acc h
    have hc := h c (List.mem_cons_self c t)
    simp only [pyIntGo, hc, if_true, List.foldl]
    exact ih _ (fun x hx => h x (List.mem_cons_of_mem _ hx))

lemma pyInt_digits (d : Char) (t : List Char) (hd : d.isDigit = true)
    (hds : ∀ c ∈ t, c.isDigit = true) :
    pyInt (d :: t) = some ((digitsToNat (d :: t) : Nat) : Int) := by
  have hall : ∀ c ∈ d :: t, c.isDigit = true := by
    intro c hc
    rcases List.mem_cons.mp hc with h | h
    · rw [h]; exact hd
    · exact hds c h
  have h1 : ¬ d = '-' := digit_ne d '-' hd (by decide)
  have h2 : ¬ d = '+' := digit_ne d '+' hd (by decide)
  unfold pyInt
  rw [pyStrip_digits _ hall]
  simp only [h1, if_false, h2]
  rw [show pyIntDigits (d :: t) =
      (if d.isDigit then pyIntGo t (d.toNat - 48) false else none) from rfl]
  rw [hd]
  simp only [if_true]
  rw [pyIntGo_digits t _ hds]
  simp [digitsToNat, List.foldl]

lemma gpc_no_marker (s : String) (h : containsSub markerList s.toList = false) :
    get_player_count (.ok (some s)) = .ok none := by
  have h' : containsSub markerList s.data = false := h
  simp [get_player_count, h']

lemma gpc_no_delim (s : String) (h1 : containsSub markerList s.toList = true)
    (h2 : firstIdx delimList s.toList = none) :
    get_player_count (.ok (some s)) = .error .valueError := by
  have h1' : containsSub markerList s.data = true := h1
  have h2' : firstIdx delimList s.data = none := h2
  simp [get_player_count, h1', h2']

lemma gpc_bad_int (s : String) (h1 : containsSub markerList s.toList = true)
    (j : Nat) (h2 : firstIdx delimList s.toList = some j)
    (h3 : pyInt (pyStrip ((s.toList.take j).drop 10)) = none) :
    get_player_count (.ok (some s)) = .error .valueError := by
  have h1' : containsSub markerList s.data = true := h1
  have h2' : firstIdx delimList s.data = some j := h2
  have h3' : pyInt (pyStrip ((s.data.take j).drop 10)) = none := h3
  simp [get_player_count, h1', h2', h3']

lemma gpc_at_start (d : Char) (ds rest : List Char) (hd : d.isDigit = true)
    (hds : ∀ c ∈ ds, c.isDigit = true) :
    get_player_count
        (Except.ok (some (String.mk (markerList ++ (d :: ds) ++ delimList ++ rest)))) =
      Except.ok (some ((digitsToNat (d :: ds) : Nat) : Int)) := by
  have htl : (String.mk (markerList ++ (d :: ds) ++ delimList ++ rest)).toList =
      markerList ++ (d :: ds) ++ delimList ++ rest := rfl
  have hc : containsSub markerList (markerList ++ (d :: ds) ++ delimList ++ rest) = true := by
    apply containsSub_of_pref
    rw [show markerList ++ (d :: ds) ++ delimList ++ rest =
        markerList ++ ((d :: ds) ++ (delimList ++ rest)) from by simp]
    exact isPrefixOf_self_append _ _
  have hfi := firstIdx_full d ds rest hd hds
  have hsl := slice_extract (d :: ds) rest
  have hstrip : pyStrip (d :: ds) = d :: ds := by
    apply pyStrip_digits
    intro c hc2
    rcases List.mem_cons.mp hc2 with h | h
    · rw [h]; exact hd
    · exact hds c h
  simp only [get_player_count, htl, hc, if_true, hfi, hsl, hstrip]
  rw [pyInt_digits d ds hd hds]

/-! ### Claim theorems about `get_player_count` (C3, C4, C9) -/

/-- C3 counterexample: `get_player_count` does raise to its caller.  The
response `"There are lots"` contains the `'There are '` marker but lacks
the `' of a max'` delimiter, so `ret.index(' of a max')` raises a
`ValueError`, which the `except GameAPIException` clause does not catch:
the call propagates an exception instead of returning `None`. -/
theorem get_player_count_raises_on_missing_delimiter :
    get_player_count (Except.ok (some "There are lots")) =
        Except.error PyExc.valueError ∧
      get_player_count (Except.ok (some "There are lots")) ≠ Except.ok none :=
  ⟨by decide, by decide⟩

/-- C3 (amended): `get_player_count` returns `None` for every
`RemoteConsoleClient` failure (a raised `GameAPIException`), for a `None`
response, and for every response text that lacks the `'There are '`
marker; but for a response containing the marker it raises `ValueError`
(rather than returning `None`) when the `' of a max'` delimiter is absent
or when the extracted text does not parse as an integer. -/
theorem get_player_count_error_boundary :
    (∀ e : Unit, get_player_count (.error e) = .ok none) ∧
    (get_player_count (.ok none) = .ok none) ∧
    (∀ s : String, containsSub markerList s.toList = false →
      get_player_count (.ok (some s)) = .ok none) ∧
    (∀ s : String, containsSub markerList s.toList = true →
      firstIdx delimList s.toList = none →
      get_player_count (.ok (some s)) = .error .valueError) ∧
    (∀ s : String, containsSub markerList s.toList = true →
      ∀ j : Nat, firstIdx delimList s.toList = some j →
      pyInt (pyStrip ((s.toList.take j).drop 10)) = none →
      get_player_count (.ok (some s)) = .error .valueError) :=
  ⟨fun _ => rfl, rfl, gpc_no_marker,
    gpc_no_delim,
    fun s h1 j h2 h3 => gpc_bad_int s h1 j h2 h3⟩

theorem get_player_count_error_boundary_witness :
    containsSub markerList "hello".toList = false ∧
      get_player_count (Except.ok (some "hello")) = Except.ok none :=
  ⟨by decide, get_player_count_error_boundary.2.2.1 "hello" (by decide)⟩

/-- C4 counterexample: a response *containing* `'There are 3 of a max 10'`
but not starting with it.  The slice `ret[10:ret.index(' of a max')]`
begins at the fixed offset 10 rather than after the marker occurrence, so
the extracted text is `'e 3'`, `int()` raises `ValueError`, and the
function neither returns 3 nor `None`. -/
theorem get_player_count_midstring_marker :
    containsSub markerList "! There are 3 of a max 10".toList = true ∧
      get_player_count (Except.ok (some "! There are 3 of a max 10")) =
        Except.error PyExc.valueError ∧
      get_player_count (Except.ok (some "! There are 3 of a max 10")) ≠
        Except.ok (some 3) :=
  ⟨by decide, by decide, by decide⟩

/-- C4 (amended): for every well-formed console response *starting with*
`'There are N of a max...'` (N a nonempty decimal digit string),
`get_player_count` returns exactly N; a response lacking the
`'There are '` marker entirely returns `None`; and a response containing
the marker but missing the `' of a max'` delimiter raises `ValueError`
rather than returning `None`.  (The original claim's "containing"
quantification fails because the slice is anchored at the fixed offset
10, not at the marker occurrence — see the counterexample, which raises;
other non-prefix occurrences can instead parse text that is not N.) -/
theorem get_player_count_parses_prefixed_response :
    (∀ (d : Char) (ds rest : List Char), d.isDigit = true →
      (∀ c ∈ ds, c.isDigit = true) →
      get_player_count
          (Except.ok (some (String.mk (markerList ++ (d :: ds) ++ delimList ++ rest)))) =
        Except.ok (some ((digitsToNat (d :: ds) : Nat) : Int))) ∧
    (∀ s : String, containsSub markerList s.toList = false →
      get_player_count (.ok (some s)) = .ok none) ∧
    (∀ s : String, containsSub markerList s.toList = true →
      firstIdx delimList s.toList = none →
      get_player_count (.ok (some s)) = .error .valueError) :=
  ⟨gpc_at_start, fun s h => gpc_no_marker s h,
    fun s h1 h2 => gpc_no_delim s h1 h2⟩

theorem get_player_count_parses_prefixed_response_witness :
    ('4' : Char).isDigit = true ∧
      String.mk (markerList ++ ('4' :: ['2']) ++ delimList ++ " of 20 players".toList) =
        "There are 42 of a max of 20 players" ∧
      get_player_count (Except.ok (some "There are 42 of a max of 20 players")) =
        Except.ok (some 42) := by
  refine ⟨by decide, by decide, ?_⟩
  have h := get_player_count_parses_prefixed_response.1 '4' ['2']
    " of 20 players".toList (by decide) (by intro c hc; simp at hc; rw [hc]; decide)
  rw [show String.mk (markerList ++ ('4' :: ['2']) ++ delimList ++ " of 20 players".toList) =
      "There are 42 of a max of 20 players" from by decide] at h
  rw [show ((digitsToNat ('4' :: ['2']) : Nat) : Int) = 42 from by decide] at h
  exact h

/-- C9 counterexample: the returned value is not always `None` or a
non-negative integer.  `int()` accepts a sign, so the crafted response
`'There are -5 of a max of 20'` makes `get_player_count` return the
negative integer -5. -/
theorem get_player_count_negative :
    get_player_count (Except.ok (some "There are -5 of a max of 20")) =
        Except.ok (some (-5)) ∧
      (-5 : Int) < 0 :=
  ⟨by decide, by decide⟩

/-- C9 (amended): `get_player_count` returns `None` or an integer parsed
by `int()`; for every response whose count field is an unsigned digit
string (all genuine server responses) the integer is non-negative, and
an unknown count (API failure, null response, missing marker) is
represented only by `None` — but a crafted response carrying a sign
yields a negative integer (see the counterexample). -/
theorem get_player_count_value_range :
    (∀ (d : Char) (ds rest : List Char), d.isDigit = true →
      (∀ c ∈ ds, c.isDigit = true) →
      ∃ n : Nat,
        get_player_count
            (Except.ok (some (String.mk (markerList ++ (d :: ds) ++ delimList ++ rest)))) =
          Except.ok (some (n : Int)) ∧ 0 ≤ (n : Int)) ∧
    (∀ e : Unit, get_player_count (.error e) = .ok none) ∧
    (get_player_count (.ok none) = .ok none) ∧
    (∀ s : String, containsSub markerList s.toList = false →
      get_player_count (.ok (some s)) = .ok none) :=
  ⟨fun d ds rest hd hds =>
      ⟨digitsToNat (d :: ds), gpc_at_start d ds rest hd hds, Int.ofNat_nonneg _⟩,
    fun _ => rfl, rfl, fun s h => gpc_no_marker s h⟩

theorem get_player_count_value_range_witness :
    ('7' : Char).isDigit = true ∧
      ∃ n : Nat,
        get_player_count
            (Except.ok (some (String.mk (markerList ++ ('7' :: []) ++ delimList ++ [])))) =
          Except.ok (some (n : Int)) ∧ 0 ≤ (n : Int) :=
  ⟨by decide,
    get_player_count_value_range.1 '7' [] [] (by decide) (by intro c hc; simp at hc)⟩

/-! ### Lemmas about `str.replace` and the claim theorems for C6 -/

lemma replace_of_countOcc_zero (pat rep : List Char) (_hpat : pat ≠ []) :
    ∀ (fuel : Nat) (l : List Char), l.length ≤ fuel →
    countOccFuel pat fuel l = 0 → pyReplaceFuel pat rep fuel l = l := by
  intro fuel
  induction fuel with
  | zero => intro l _ _; rfl
  | succ f ih =>
    intro l hl hc
    cases l with
    | nil => rfl
    | cons c t =>
      rcases Bool.eq_false_or_eq_true (pat.isPrefixOf (c :: t)) with hp | hp
      · simp [countOccFuel, hp] at hc
      · simp only [countOccFuel, hp] at hc
        simp only [pyReplaceFuel, hp]
        simp only [Bool.false_eq_true, if_false] at hc ⊢
        rw [ih t (by simp at hl; omega) hc]

lemma replace_of_countOcc_one (pat rep : List Char) (hpat : pat ≠ []) :
    ∀ (fuel : Nat) (l : List Char), l.length ≤ fuel →
    countOccFuel pat fuel l = 1 →
    pyReplaceFuel pat rep fuel l = replaceFirstGo pat rep l := by
  intro fuel
  induction fuel with
  | zero => intro l hl hc; cases hc
  | succ f ih =>
    intro l hl hc
    cases l with
    | nil => cases hc
    | cons c t =>
      have hplen : 1 ≤ pat.length := by
        cases pat with
        | nil => exact absurd rfl hpat
        | cons p pp => simp
      have hdrop : ((c :: t).drop pat.length).length ≤ t.length := by
        rw [List.length_drop]
        simp only [List.length_cons]
        omega
      rcases Bool.eq_false_or_eq_true (pat.isPrefixOf (c :: t)) with hp | hp
      · simp only [countOccFuel, hp] at hc
        simp only [eq_self_iff_true, if_true] at hc
        have hc0 : countOccFuel pat f ((c :: t).drop pat.length) = 0 := by omega
        simp only [pyReplaceFuel, replaceFirstGo, hp]
        simp only [eq_self_iff_true, if_true]
        rw [replace_of_countOcc_zero pat rep hpat f _
          (by simp at hl; omega) hc0]
      · simp only [countOccFuel, hp] at hc
        simp only [Bool.false_eq_true, if_false] at hc
        simp only [pyReplaceFuel, replaceFirstGo, hp]
        simp only [Bool.false_eq_true, if_false]
        rw [ih t (by simp at hl; omega) hc]

lemma contains_of_countOcc_pos (pat : List Char) :
    ∀ (fuel : Nat) (l : List Char), l.length ≤ fuel →
    1 ≤ countOccFuel pat fuel l → containsSub pat l = true := by
  intro fuel
  induction fuel with
  | zero => intro l _ hc; cases hc
  | succ f ih =>
    intro l hl hc
    cases l with
    | nil => cases hc
    | cons c t =>
      rcases Bool.eq_false_or_eq_true (pat.isPrefixOf (c :: t)) with hp | hp
      · simp [containsSub, hp]
      · simp only [countOccFuel, hp] at hc
        simp only [Bool.false_eq_true, if_false] at hc
        simp [containsSub, hp]
        exact ih t (by simp at hl; omega) hc

/-- C6 counterexample: `str.replace` replaces *every* occurrence of the
placeholder token, not exactly one.  On a template containing the token
twice, the rendered message differs from the spec's
"replaced exactly once" reading (`renderOnceSpec`). -/
theorem render_double_token :
    render "\x7binstance\x7d\x7binstance\x7d" "X" = "XX" ∧
      renderOnceSpec "\x7binstance\x7d\x7binstance\x7d" "X" = "X\x7binstance\x7d" ∧
      render "\x7binstance\x7d\x7binstance\x7d" "X" ≠
        renderOnceSpec "\x7binstance\x7d\x7binstance\x7d" "X" :=
  ⟨by decide, by decide, by decide⟩

/-- C6 (amended): a template without the placeholder token is passed
through unmodified, and rendering replaces every occurrence of the token;
in particular a template containing the token exactly once has it
replaced exactly once (rendering agrees with the replace-first-occurrence
function). -/
theorem render_substitution (t n : String) :
    (containsSub placeholderTok t.toList = false → render t n = t) ∧
    (countOcc placeholderTok t.toList = 1 → render t n = renderOnceSpec t n) := by
  constructor
  · intro h
    have h' : containsSub placeholderTok t.data = false := h
    simp [render, h']
  · intro h
    have h2 : countOccFuel placeholderTok t.toList.length t.toList = 1 := h
    have hcont : containsSub placeholderTok t.toList = true :=
      contains_of_countOcc_pos placeholderTok t.toList.length t.toList
        (le_refl _) (le_of_eq h2.symm)
    have hlist : pyReplaceAll placeholderTok n.toList t.toList =
        replaceFirstGo placeholderTok n.toList t.toList :=
      replace_of_countOcc_one placeholderTok n.toList (by decide)
        t.toList.length t.toList (le_refl _) h2
    unfold render renderOnceSpec
    rw [hcont]
    simp only [eq_self_iff_true, if_true]
    exact congrArg String.mk hlist

theorem render_substitution_witness :
    countOcc placeholderTok "a\x7binstance\x7db".toList = 1 ∧
      render "a\x7binstance\x7db" "Foo" = renderOnceSpec "a\x7binstance\x7db" "Foo" ∧
      render "a\x7binstance\x7db" "Foo" = "aFoob" :=
  ⟨by decide, (render_substitution "a\x7binstance\x7db" "Foo").2 (by decide), by decide⟩

/-! ### Claim theorems about `post_start` (C1) -/

lemma postStartLoop_all_none (polls : Nat → Except PyExc (Option Int))
    (g : StartOpts) :
    ∀ (fuel idx : Nat), (∀ i, i < fuel → polls (idx + i) = .ok none) →
    postStartLoop polls g idx fuel =
      ((List.replicate fuel [Event.poll, Event.sleep 10]).flatten, .ok false) := by
  intro fuel
  induction fuel with
  | zero => intro idx _; rfl
  | succ f ih =>
    intro idx h
    have h0 : polls idx = .ok none := by
      have := h 0 (Nat.succ_pos f)
      simpa using this
    have hrest : ∀ i, i < f → polls (idx + 1 + i) = .ok none := by
      intro i hi
      have := h (i + 1) (by omega)
      rw [show idx + 1 + i = idx + (i + 1) from by omega]
      exact this
    simp only [postStartLoop, h0, ih (idx + 1) hrest, List.replicate_succ,
      List.flatten_cons]
    rfl

lemma postStartLoop_first_some (polls : Nat → Except PyExc (Option Int))
    (g : StartOpts) :
    ∀ (fuel idx j : Nat) (v : Int), j < fuel →
    (∀ i, i < j → polls (idx + i) = .ok none) →
    polls (idx + j) = .ok (some v) →
    postStartLoop polls g idx fuel =
      ((List.replicate j [Event.poll, Event.sleep 10]).flatten ++
        [Event.poll, Event.discord (render g.startedTemplate g.instanceName)],
       .ok true) := by
  intro fuel
  induction fuel with
  | zero => intro idx j v hj _ _; omega
  | succ f ih =>
    intro idx j v hj hnone hsome
    cases j with
    | zero =>
      have h0 : polls idx = .ok (some v) := by simpa using hsome
      simp [postStartLoop, h0]
    | succ j' =>
      have h0 : polls idx = .ok none := by
        have := hnone 0 (Nat.succ_pos j')
        simpa using this
      have hnone' : ∀ i, i < j' → polls (idx + 1 + i) = .ok none := by
        intro i hi
        have := hnone (i + 1) (by omega)
        rw [show idx + 1 + i = idx + (i + 1) from by omega]
        exact this
      have hsome' : polls (idx + 1 + j') = .ok (some v) := by
        rw [show idx + 1 + j' = idx + (j' + 1) from by omega]
        exact hsome
      simp only [postStartLoop, h0, ih (idx + 1) j' v (by omega) hnone' hsome',
        List.replicate_succ, List.flatten_cons]
      rfl

/-- C1: `post_start` with the API disabled returns success immediately
with no `get_player_count` call; with the API enabled it polls up to 24
times with a 10-second sleep after each undefined result, returns success
and sends exactly one rendered "instance started" notification at the
first poll that yields a defined count, and returns failure after exactly
24 polls when every poll yields `None` (the full event trace is given in
each case). -/
theorem post_start_behavior (polls : Nat → Except PyExc (Option Int))
    (g : StartOpts) :
    (post_start false polls g = ([], Except.ok true)) ∧
    ((∀ i, i < 24 → polls i = .ok none) →
      post_start true polls g =
        ((List.replicate 24 [Event.poll, Event.sleep 10]).flatten, Except.ok false)) ∧
    (∀ (j : Nat) (v : Int), j < 24 → (∀ i, i < j → polls i = .ok none) →
      polls j = .ok (some v) →
      post_start true polls g =
        ((List.replicate j [Event.poll, Event.sleep 10]).flatten ++
          [Event.poll, Event.discord (render g.startedTemplate g.instanceName)],
         Except.ok true)) := by
  refine ⟨rfl, ?_, ?_⟩
  · intro h
    have := postStartLoop_all_none polls g 24 0 (by intro i hi; simpa using h i hi)
    simpa [post_start] using this
  · intro j v hj hnone hsome
    have := postStartLoop_first_some polls g 24 0 j v hj
      (by intro i hi; simpa using hnone i hi) (by simpa using hsome)
    simpa [post_start] using this

theorem post_start_behavior_witness :
    post_start true (fun _ => Except.ok (some 7)) ⟨"up", "w"⟩ =
      ([Event.poll, Event.discord "up"], Except.ok true) := by
  have h := (post_start_behavior (fun _ => Except.ok (some 7)) ⟨"up", "w"⟩).2.2
    0 7 (by omega) (fun i hi => absurd hi (by omega)) rfl
  rw [show render "up" "w" = "up" from rfl] at h
  simpa using h

/-! ### Claim theorems about `pre_stop` (C2, C7, C8) -/

lemma preStopLoop_spec (polls : Nat → Except PyExc (Option Int))
    (cmds : Nat → Except Unit (Option String)) :
    ∀ (timers : List (String × Nat)) (pollIdx cmdIdx k : Nat),
    k ≤ timers.length →
    (∀ i, i < k → ∃ n : Int, polls (pollIdx + i) = .ok (some n) ∧ 0 < n) →
    (∀ i, i < k → ∃ resp, cmds (cmdIdx + i) = .ok resp) →
    (k = timers.length ∨ (k < timers.length ∧ ∃ v, polls (pollIdx + k) = .ok v ∧
      ∀ n : Int, v = some n → n ≤ 0)) →
    preStopLoop polls cmds timers pollIdx cmdIdx =
      ((timers.take k).flatMap (fun t => Event.poll :: Event.say t.1 ::
          (if t.2 ≠ 0 then [Event.sleep t.2] else [])) ++
        (if k < timers.length then [Event.poll] else []),
       .ok (cmdIdx + k)) := by
  intro timers
  induction timers with
  | nil =>
    intro pollIdx cmdIdx k hk _ _ _
    have hk0 : k = 0 := by simpa using hk
    subst hk0
    simp [preStopLoop]
  | cons hd rest ih =>
    obtain ⟨msg, wait⟩ := hd
    intro pollIdx cmdIdx k hk hpos hcmds hstop
    cases k with
    | zero =>
      rcases hstop with h | ⟨_, v, hv, hnp⟩
      · simp at h
      · have hv' : polls pollIdx = .ok v := by simpa using hv
        cases v with
        | none => simp [preStopLoop, hv']
        | some n =>
          have hn : n ≤ 0 := hnp n rfl
          simp only [preStopLoop, hv']
          rw [if_neg (by omega)]
          simp
    | succ k' =>
      obtain ⟨n0, hp0, hn0⟩ := hpos 0 (Nat.succ_pos k')
      have hp0' : polls pollIdx = .ok (some n0) := by simpa using hp0
      obtain ⟨r0, hc0⟩ := hcmds 0 (Nat.succ_pos k')
      have hc0' : cmds cmdIdx = .ok r0 := by simpa using hc0
      have hrec := ih (pollIdx + 1) (cmdIdx + 1) k'
        (by simp at hk; omega)
        (by intro i hi
            have := hpos (i + 1) (by omega)
            rw [show pollIdx + 1 + i = pollIdx + (i + 1) from by omega]
            exact this)
        (by intro i hi
            have := hcmds (i + 1) (by omega)
            rw [show cmdIdx + 1 + i = cmdIdx + (i + 1) from by omega]
            exact this)
        (by rcases hstop with h | ⟨h1, v, hv, hnp⟩
            · left
              simp at h
              exact h
            · right
              refine ⟨by simp at h1; omega, v, ?_, hnp⟩
              rw [show pollIdx + 1 + k' = pollIdx + (k' + 1) from by omega]
              exact hv)
      simp only [preStopLoop, hp0', hc0']
      rw [if_pos hn0]
      rw [hrec]
      simp only [List.take_succ_cons, List.flatMap_cons, List.length_cons,
        Nat.add_lt_add_iff_right]
      refine Prod.ext ?_ ?_
      · rcases Nat.eq_zero_or_pos wait with hw | hw
        · subst hw
          simp [List.append_assoc]
        · simp [hw.ne', List.append_assoc]
      · show Except.ok (cmdIdx + 1 + k') = Except.ok (cmdIdx + (k' + 1))
        rw [show cmdIdx + 1 + k' = cmdIdx + (k' + 1) from by omega]

/-- C2: with the API enabled, `pre_stop` walks the fixed 7-step schedule
with waits 60, 60, 60, 60, 30, 30, 0 seconds, in order; at each step it
polls the player count, and sends that step's warning then sleeps (for a
nonzero wait) only when the count is a defined positive integer; it
breaks at the first step whose count is `None` or nonpositive; and after
the loop it always issues the forced `save-all flush` followed by a
5-second settle sleep, returning success.  The full event trace for `k`
positive-count steps is given explicitly. -/
theorem pre_stop_warning_schedule (polls : Nat → Except PyExc (Option Int))
    (cmds : Nat → Except Unit (Option String)) (g : StopOpts) :
    stopTimers g = [(g.w5, 60), (g.w4, 60), (g.w3, 60), (g.w2, 60),
      (g.w1, 30), (g.w30, 30), (g.wNow, 0)] ∧
    ∀ k : Nat, k ≤ 7 →
    (∀ i, i < k → ∃ n : Int, polls i = .ok (some n) ∧ 0 < n) →
    (∀ i, i < k → ∃ resp, cmds i = .ok resp) →
    (k = 7 ∨ (k < 7 ∧ ∃ v, polls k = .ok v ∧ ∀ n : Int, v = some n → n ≤ 0)) →
    (∃ resp, cmds k = .ok resp) →
    pre_stop true polls cmds g =
      (Event.discord (render g.stoppingTemplate g.instanceName) ::
        (((stopTimers g).take k).flatMap (fun t => Event.poll :: Event.say t.1 ::
            (if t.2 ≠ 0 then [Event.sleep t.2] else [])) ++
          ((if k < 7 then [Event.poll] else []) ++ [Event.save, Event.sleep 5])),
       Except.ok true) := by
  refine ⟨rfl, ?_⟩
  intro k hk hpos hcmds hstop hsave
  have hlen : (stopTimers g).length = 7 := rfl
  have hloop := preStopLoop_spec polls cmds (stopTimers g) 0 0 k
    (by rw [hlen]; exact hk)
    (by intro i hi; simpa using hpos i hi)
    (by intro i hi; simpa using hcmds i hi)
    (by rcases hstop with h | ⟨h1, v, hv, hnp⟩
        · left; rw [hlen]; exact h
        · right; exact ⟨by rw [hlen]; exact h1, v, by simpa using hv, hnp⟩)
  obtain ⟨resp, hresp⟩ := hsave
  have hresp' : cmds (0 + k) = .ok resp := by simpa using hresp
  simp only [pre_stop, hloop, hresp', hlen]
  simp [List.append_assoc]

theorem pre_stop_warning_schedule_witness :
    pre_stop true
      (fun i => Except.ok (some (if i = 0 then 5 else if i = 1 then 3 else 0)))
      (fun _ => Except.ok none)
      ⟨"stop", "n", "m5", "m4", "m3", "m2", "m1", "m30", "mN"⟩ =
      ([Event.discord "stop", Event.poll, Event.say "m5", Event.sleep 60,
        Event.poll, Event.say "m4", Event.sleep 60, Event.poll,
        Event.save, Event.sleep 5], Except.ok true) := by
  have h := (pre_stop_warning_schedule
      (fun i => Except.ok (some (if i = 0 then 5 else if i = 1 then 3 else 0)))
      (fun _ => Except.ok none)
      ⟨"stop", "n", "m5", "m4", "m3", "m2", "m1", "m30", "mN"⟩).2
    2 (by omega)
    (by intro i hi
        have h01 : i = 0 ∨ i = 1 := by omega
        rcases h01 with rfl | rfl
        · exact ⟨5, rfl, by omega⟩
        · exact ⟨3, rfl, by omega⟩)
    (fun i _ => ⟨none, rfl⟩)
    (Or.inr ⟨by omega, some 0, rfl, by intro n hn; injection hn with h2; omega⟩)
    ⟨none, rfl⟩
  exact h.trans (by decide)

lemma preStopLoop_no_discord (polls : Nat → Except PyExc (Option Int))
    (cmds : Nat → Except Unit (Option String)) :
    ∀ (timers : List (String × Nat)) (pollIdx cmdIdx : Nat),
    (preStopLoop polls cmds timers pollIdx cmdIdx).1.countP isDiscordEv = 0 := by
  intro timers
  induction timers with
  | nil => intro pollIdx cmdIdx; rfl
  | cons hd rest ih =>
    obtain ⟨msg, wait⟩ := hd
    intro pollIdx cmdIdx
    cases hp : polls pollIdx with
    | error e => simp [preStopLoop, hp, isDiscordEv]
    | ok r =>
      cases r with
      | none => simp [preStopLoop, hp, isDiscordEv]
      | some n =>
        rcases le_or_lt n 0 with hn | hn
        · simp only [preStopLoop, hp]
          rw [if_neg (by omega)]
          simp [isDiscordEv]
        · simp only [preStopLoop, hp]
          rw [if_pos hn]
          cases hc : cmds cmdIdx with
          | error e => simp [List.countP_cons, isDiscordEv]
          | ok resp =>
            rcases Nat.eq_zero_or_pos wait with hw | hw
            · subst hw
              simp [List.countP_cons, isDiscordEv, ih]
            · simp [hw.ne', List.countP_cons, isDiscordEv, ih]

/-- C7: `pre_stop` sends the configured stopping notification exactly once
on every invocation, as the first event, before and independent of the
API-enabled check; with the API disabled the whole trace is that single
notification (no poll, no warning, no save) and the result is success. -/
theorem pre_stop_stopping_notification (apiEnabled : Bool)
    (polls : Nat → Except PyExc (Option Int))
    (cmds : Nat → Except Unit (Option String)) (g : StopOpts) :
    ((pre_stop apiEnabled polls cmds g).1.head? =
      some (Event.discord (render g.stoppingTemplate g.instanceName))) ∧
    ((pre_stop apiEnabled polls cmds g).1.countP isDiscordEv = 1) ∧
    (pre_stop false polls cmds g =
      ([Event.discord (render g.stoppingTemplate g.instanceName)],
        Except.ok true)) := by
  have hnd := preStopLoop_no_discord polls cmds (stopTimers g) 0 0
  cases apiEnabled with
  | false =>
    refine ⟨rfl, ?_, rfl⟩
    simp [pre_stop, List.countP_cons, isDiscordEv]
  | true =>
    refine ⟨?_, ?_, rfl⟩ <;>
    · simp only [pre_stop]
      cases h2 : (preStopLoop polls cmds (stopTimers g) 0 0).2 with
      | error e => simp [h2, List.countP_cons, isDiscordEv, hnd]
      | ok c =>
        cases hc : cmds c with
        | error e =>
          simp [h2, hc, List.countP_cons, List.countP_append, isDiscordEv, hnd]
        | ok resp =>
          simp [h2, hc, List.countP_cons, List.countP_append, isDiscordEv, hnd]

/-- C8 counterexample: `pre_stop` does not return success for every
input.  With the API enabled, a first poll reporting zero players and a
`save-all flush` command that raises `GameAPIException`, the exception
propagates out of `pre_stop` (there is no `try`/`except` around the save
or the warning sends), so no success is returned. -/
theorem pre_stop_save_failure_propagates :
    (pre_stop true (fun _ => Except.ok (some 0)) (fun _ => Except.error ())
        ⟨"stop", "srv", "m5", "m4", "m3", "m2", "m1", "m30", "mN"⟩).2 =
        Except.error PyExc.gameAPI ∧
      (pre_stop true (fun _ => Except.ok (some 0)) (fun _ => Except.error ())
        ⟨"stop", "srv", "m5", "m4", "m3", "m2", "m1", "m30", "mN"⟩).2 ≠
        Except.ok true :=
  ⟨by decide, by decide⟩

lemma preStopLoop_ok (polls : Nat → Except PyExc (Option Int))
    (cmds : Nat → Except Unit (Option String))
    (hpoll : ∀ i, ∃ v, polls i = .ok v)
    (hcmd : ∀ i, ∃ r, cmds i = .ok r) :
    ∀ (timers : List (String × Nat)) (pollIdx cmdIdx : Nat),
    ∃ evs c, preStopLoop polls cmds timers pollIdx cmdIdx = (evs, .ok c) := by
  intro timers
  induction timers with
  | nil => intro pollIdx cmdIdx; exact ⟨[], cmdIdx, rfl⟩
  | cons hd rest ih =>
    obtain ⟨msg, wait⟩ := hd
    intro pollIdx cmdIdx
    obtain ⟨v, hv⟩ := hpoll pollIdx
    cases v with
    | none => exact ⟨[Event.poll], cmdIdx, by simp [preStopLoop, hv]⟩
    | some n =>
      rcases le_or_lt n 0 with hn | hn
      · refine ⟨[Event.poll], cmdIdx, ?_⟩
        simp only [preStopLoop, hv]
        rw [if_neg (by omega)]
      · obtain ⟨r0, hc⟩ := hcmd cmdIdx
        obtain ⟨evs, c, hrec⟩ := ih (pollIdx + 1) (cmdIdx + 1)
        refine ⟨Event.poll :: Event.say msg ::
          (if wait ≠ 0 then Event.sleep wait :: evs else evs), c, ?_⟩
        simp only [preStopLoop, hv, hc]
        rw [if_pos hn, hrec]

/-- C8 (amended): `pre_stop` returns success whenever none of the console
commands it issues raises: a `None` player count or command response
never aborts the loop-to-save path.  But a `GameAPIException` raised by a
warning `/say` or by the forced save (or a `ValueError` escaping
`get_player_count`) propagates out of `pre_stop` instead of being
absorbed — see the counterexample. -/
theorem pre_stop_success_when_commands_ok (apiEnabled : Bool)
    (polls : Nat → Except PyExc (Option Int))
    (cmds : Nat → Except Unit (Option String)) (g : StopOpts)
    (hpoll : ∀ i, ∃ v, polls i = .ok v)
    (hcmd : ∀ i, ∃ r, cmds i = .ok r) :
    (pre_stop apiEnabled polls cmds g).2 = Except.ok true := by
  cases apiEnabled with
  | false => rfl
  | true =>
    obtain ⟨evs, c, hloop⟩ := preStopLoop_ok polls cmds hpoll hcmd (stopTimers g) 0 0
    obtain ⟨r, hr⟩ := hcmd c
    simp [pre_stop, hloop, hr]

theorem pre_stop_success_when_commands_ok_witness :
    (pre_stop true (fun _ => Except.ok none) (fun _ => Except.ok none)
        ⟨"t", "n", "a", "b", "c", "d", "e", "f", "h"⟩).2 = Except.ok true :=
  pre_stop_success_when_commands_ok true _ _ _
    (fun _ => ⟨none, rfl⟩) (fun _ => ⟨none, rfl⟩)

/-! ### Claim theorems for the firewall glue (C10) and the update check (C5) -/

/-- C10: firewall synchronization on a port-option change.  With no
previous value no remove is attempted (idempotent re-application); with a
non-empty previous value exactly one remove of the old port precedes
exactly one allow of the new port; `'Server Port'` uses tcp and
`'Query Port'` uses udp, each with its human-readable label. -/
theorem option_value_updated_firewall :
    (∀ (new_value : String) (q : Int), pyInt new_value.toList = some q →
      option_value_updated "Server Port" none new_value =
        .ok [FwCall.allow q "tcp" ("Allow " ++ gameDesc ++ " game port")] ∧
      option_value_updated "Query Port" none new_value =
        .ok [FwCall.allow q "udp" ("Allow " ++ gameDesc ++ " query port")]) ∧
    (∀ (prev new_value : String) (p q : Int), prev ≠ "" →
      pyInt prev.toList = some p → pyInt new_value.toList = some q →
      option_value_updated "Server Port" (some prev) new_value =
        .ok [FwCall.remove p "tcp",
          FwCall.allow q "tcp" ("Allow " ++ gameDesc ++ " game port")] ∧
      option_value_updated "Query Port" (some prev) new_value =
        .ok [FwCall.remove p "udp",
          FwCall.allow q "udp" ("Allow " ++ gameDesc ++ " query port")]) := by
  constructor
  · intro new_value q hq
    have hq' : pyInt new_value.data = some q := hq
    constructor
    · simp [option_value_updated, firewallCalls, hq']
    · rw [option_value_updated, if_neg (by decide), if_pos rfl]
      simp [firewallCalls, hq']
  · intro prev new_value p q hprev hp hq
    have hp' : pyInt prev.data = some p := hp
    have hq' : pyInt new_value.data = some q := hq
    constructor
    · simp [option_value_updated, firewallCalls, hprev, hp', hq']
    · rw [option_value_updated, if_neg (by decide), if_pos rfl]
      simp [firewallCalls, hprev, hp', hq']

theorem option_value_updated_firewall_witness :
    ("25565" : String) ≠ "" ∧ pyInt "25565".toList = some 25565 ∧
      pyInt "25566".toList = some 25566 ∧
      option_value_updated "Server Port" (some "25565") "25566" =
        .ok [FwCall.remove 25565 "tcp",
          FwCall.allow 25566 "tcp" "Allow Minecraft Java Edition game port"] := by
  refine ⟨by decide, by decide, by decide, ?_⟩
  have h := (option_value_updated_firewall.2 "25565" "25566" 25565 25566
    (by decide) (by decide) (by decide)).1
  exact h.trans (by decide)

/-- C5: the source's `check_update_available` is the stub
`# @todo Implement update check for Minecraft` / `return False`: it
returns `False` unconditionally — in particular it does not return `True`
when no local version marker exists, contradicting the spec. -/
theorem check_update_available_always_false :
    ∀ u : Unit, check_update_available u = false :=
  fun _ => rfl
